import Mathlib

/-!
Shallow embedding of the generative-report-benchmark evaluation harness.

The embedding follows the Python source:
  * `src/runner.py` — `EvaluationRunner.run` / `save_results`;
  * `src/main.py` — `load_data_from_files` and the `__main__` driver;
  * `src/metrics/bleu.py`, `meteor.py`, `rouge.py` — corpus-level wrappers;
  * `src/metrics/bleurt.py` — `BLEURTWrapper.__init__` / `compute`.

A pandas `DataFrame` is modelled column-wise: an ordered association list of
named columns over a fixed number of rows.  Column assignment
(`df[name] = values`) keeps an existing column in place or appends a new one
at the end, and — as pandas does for a plain-list right-hand side — raises
`ValueError` when the value list's length differs from the row count.
Exceptions are modelled with `Except`; printed warnings are collected in a
log so that the runner's mismatch warning is observable.
-/

/-- Value stored in one table cell: the text columns hold strings, score
columns hold rationals standing for the Python floats. -/
inductive Cell where
  | str (s : String)
  | num (q : ℚ)
deriving DecidableEq, Repr

/-- Column-wise model of a pandas `DataFrame`: ordered named columns over
`nrows` rows.  Well-formed frames have every column of length `nrows`;
the operations below preserve that. -/
structure DataFrame where
  cols : List (String × List Cell)
  nrows : Nat
deriving DecidableEq, Repr

/-- Replace the values of every column named `name` (pandas assignment to an
existing label), keeping column order. -/
def replaceColVals (name : String) (vals : List Cell) :
    List (String × List Cell) → List (String × List Cell)
  | [] => []
  | c :: rest =>
      (if c.1 == name then (name, vals) else c) :: replaceColVals name vals rest

/-- Column assignment on the column list: overwrite in place when the label
exists, append at the end otherwise — the pandas `df[name] = vals` layout. -/
def setColVals (name : String) (vals : List Cell) :
    List (String × List Cell) → List (String × List Cell)
  | [] => [(name, vals)]
  | c :: rest =>
      if c.1 == name then (name, vals) :: replaceColVals name vals rest
      else c :: setColVals name vals rest

/-- Message pandas raises when a plain list of the wrong length is assigned
as a column. -/
def lengthMismatchError (got expected : Nat) : String :=
  "ValueError: Length of values (" ++ toString got ++
    ") does not match length of index (" ++ toString expected ++ ")"

/-- Column assignment `df[name] = vals`.  pandas raises `ValueError` when the
assigned list's length differs from the frame's row count; otherwise the
column is overwritten in place or appended. -/
def DataFrame.setCol (df : DataFrame) (name : String) (vals : List Cell) :
    Except String DataFrame :=
  if vals.length = df.nrows then
    .ok ⟨setColVals name vals df.cols, df.nrows⟩
  else
    .error (lengthMismatchError vals.length df.nrows)

/-- Column lookup `df[name]`, `none` when the label is absent (pandas raises
`KeyError` there; the caller turns `none` into the error). -/
def DataFrame.getCol (df : DataFrame) (name : String) : Option (List Cell) :=
  (df.cols.find? (fun c => c.1 == name)).map Prod.snd

/-- pandas `df.empty`: true when either axis has length zero. -/
def DataFrame.isEmpty (df : DataFrame) : Bool :=
  df.nrows == 0 || df.cols.isEmpty

/-- Metric adapter as the runner sees it (`base_metric.py` protocol): a name
and a `compute` taking the prediction and reference column values and
returning an ordered dict of named score lists, or raising. -/
structure Metric where
  name : String
  compute : List Cell → List Cell → Except String (List (String × List Cell))

/-- Warning printed by `EvaluationRunner.run` when a metric's score list
length disagrees with the row count (runner.py lines 74-76). -/
def mismatchWarning (scoreName : String) (got expected : Nat) : String :=
  "warning: metric " ++ scoreName ++ " returned " ++ toString got ++
    " results but the input has " ++ toString expected ++ " rows"

/-- Inner loop of `run` over one metric's returned score dict: warn on a
length mismatch, then perform the column assignment (which raises on that
same mismatch), in source order. -/
def applyScores (df : DataFrame) (log : List String) :
    List (String × List Cell) → List String × Except String DataFrame
  | [] => (log, .ok df)
  | (scoreName, scoreValues) :: rest =>
      let log' :=
        if scoreValues.length ≠ df.nrows then
          log ++ [mismatchWarning scoreName scoreValues.length df.nrows]
        else log
      match df.setCol scoreName scoreValues with
      | .ok df' => applyScores df' log' rest
      | .error e => (log', .error e)

/-- Outer loop of `run` over the registered metrics, threading the result
frame and the warning log; a metric exception or a failed assignment
propagates (fail-fast). -/
def runMetrics (predictions references : List Cell) :
    List Metric → DataFrame → List String → List String × Except String DataFrame
  | [], df, log => (log, .ok df)
  | m :: rest, df, log =>
      match m.compute predictions references with
      | .error e => (log, .error e)
      | .ok scores =>
          match applyScores df log scores with
          | (log', .ok df') => runMetrics predictions references rest df' log'
          | (log', .error e) => (log', .error e)

/-- `EvaluationRunner.run(data, original_col, degraded_col)`: copy the input
frame, extract the prediction and reference columns once, then run every
metric in registration order.  Returns the warning log together with the
result frame or the propagated exception.  The `data.copy()` of the source
is the identity in this functional model; the aliasing discipline it buys
is verified separately on the store-passing embedding below. -/
def EvaluationRunner.run (metrics : List Metric) (data : DataFrame)
    (originalCol degradedCol : String) : List String × Except String DataFrame :=
  match data.getCol degradedCol, data.getCol originalCol with
  | some predictions, some references =>
      runMetrics predictions references metrics data []
  | _, _ => ([], .error "KeyError")

/-- Names of all score lists the metrics would emit on the given prediction
and reference columns (the columns `run` may overwrite). -/
def emittedNames (predictions references : List Cell) : List Metric → List String
  | [] => []
  | m :: rest =>
      (match m.compute predictions references with
       | .ok scores => scores.map Prod.fst
       | .error _ => []) ++ emittedNames predictions references rest

/-! Store-passing embedding of the same runner.  Frames live in a store and
are addressed by index, so that `data.copy()` (a fresh allocation) versus
in-place column assignment on the copy is explicit, and the absence of
mutation of the caller's frame is a real statement. -/

/-- Heap of allocated frames, addressed by position. -/
structure Store where
  tables : List DataFrame
deriving Repr

/-- Read the frame at index `i` (meaningful for allocated indices). -/
def Store.getTable (s : Store) (i : Nat) : DataFrame :=
  s.tables.getD i ⟨[], 0⟩

/-- Overwrite the frame at index `i` in place. -/
def Store.setTable (s : Store) (i : Nat) (t : DataFrame) : Store :=
  ⟨s.tables.set i t⟩

/-- Inner score loop of the store-passing runner: every column assignment
mutates the result frame `rid` in place. -/
def applyScoresStore (s : Store) (rid : Nat) (log : List String) :
    List (String × List Cell) → Store × List String × Except String Unit
  | [] => (s, log, .ok ())
  | (scoreName, scoreValues) :: rest =>
      let df := s.getTable rid
      let log' :=
        if scoreValues.length ≠ df.nrows then
          log ++ [mismatchWarning scoreName scoreValues.length df.nrows]
        else log
      match df.setCol scoreName scoreValues with
      | .ok df' => applyScoresStore (s.setTable rid df') rid log' rest
      | .error e => (s, log', .error e)

/-- Outer metric loop of the store-passing runner. -/
def runMetricsStore (predictions references : List Cell) (rid : Nat) :
    List Metric → Store → List String → Store × List String × Except String Unit
  | [], s, log => (s, log, .ok ())
  | m :: rest, s, log =>
      match m.compute predictions references with
      | .error e => (s, log, .error e)
      | .ok scores =>
          match applyScoresStore s rid log scores with
          | (s', log', .ok ()) => runMetricsStore predictions references rid rest s' log'
          | (s', log', .error e) => (s', log', .error e)

/-- Store-passing `EvaluationRunner.run`: `results_df = data.copy()` is a
fresh allocation holding the same rows; all later column assignments target
that fresh frame; the identifier of the result frame is returned. -/
def EvaluationRunner.runStore (metrics : List Metric) (s : Store) (did : Nat)
    (originalCol degradedCol : String) :
    Store × List String × Except String Nat :=
  let data := s.getTable did
  let rid := s.tables.length
  let s₁ : Store := ⟨s.tables ++ [data]⟩
  match data.getCol degradedCol, data.getCol originalCol with
  | some predictions, some references =>
      match runMetricsStore predictions references rid metrics s₁ [] with
      | (s', log, .ok ()) => (s', log, .ok rid)
      | (s', log, .error e) => (s', log, .error e)
  | _, _ => (s₁, [], .error "KeyError")

/-! Ingestion (`main.py`).  The relevant slice of the file system is the
contents of `data/original.txt` when that file exists, and the directory
listing of `data/degraded/` (file name and contents, in listing order) when
that directory exists. -/

/-- Input root directory as `load_data_from_files` observes it:
`original` is the contents of `original.txt` when the file opens,
`degradedDir` is the `degraded/` listing when `os.path.isdir` holds. -/
structure InputRoot where
  original : Option String
  degradedDir : Option (List (String × String))

/-- One ingestion record (the dict appended to `records`). -/
structure IngestRecord where
  original_text : String
  degraded_text : String
  degradation_type : String
deriving DecidableEq, Repr

/-- Python `p.endswith(suf)`: the suffix test on the character sequences. -/
def strEndsWith (p suf : String) : Bool :=
  suf.data.isSuffixOf p.data

/-- Stem part of `os.path.splitext` on a bare file name: split at the last
dot, except that a name whose characters before that dot are all dots (such
as `.txt`) has no extension and is returned whole. -/
def splitextStem (p : String) : String :=
  let cs := p.data
  if '.' ∈ cs then
    let k := cs.length - 1 - cs.reverse.indexOf '.'
    if (cs.take k).any (fun c => c != '.') then ⟨cs.take k⟩ else p
  else p

/-- `pd.DataFrame(records)`: one column per record key in insertion order,
one row per record in list order. -/
def recordsToFrame (records : List IngestRecord) : DataFrame :=
  ⟨[("original_text", records.map (fun r => Cell.str r.original_text)),
    ("degraded_text", records.map (fun r => Cell.str r.degraded_text)),
    ("degradation_type", records.map (fun r => Cell.str r.degradation_type))],
   records.length⟩

/-- `pd.DataFrame(columns=[...])`: the empty frame returned on a missing
`original.txt`. -/
def emptyIngestFrame : DataFrame :=
  ⟨[("original_text", []), ("degraded_text", []), ("degradation_type", [])], 0⟩

/-- `load_data_from_files` (main.py): missing `original.txt` yields the
empty three-column frame; otherwise one self-comparison record, then one
record per `.txt` file of the `degraded/` listing, labelled by the file
name with its extension stripped. -/
def load_data_from_files (root : InputRoot) : DataFrame :=
  match root.original with
  | none => emptyIngestFrame
  | some originalContent =>
      let selfRecord : IngestRecord :=
        ⟨originalContent, originalContent, "Original (Self-comparison)"⟩
      let degradedRecords :=
        match root.degradedDir with
        | none => []
        | some listing =>
            (listing.filter (fun p => strEndsWith p.1 ".txt")).map
              (fun p => (⟨originalContent, p.2, splitextStem p.1⟩ : IngestRecord))
      recordsToFrame (selfRecord :: degradedRecords)

/-- Driver gate in `__main__` (main.py): the orchestrator's `run` is invoked
exactly when the ingested frame is non-empty. -/
def mainInvokesRun (root : InputRoot) : Bool :=
  !(load_data_from_files root).isEmpty

/-! Corpus-level wrappers (`bleu.py`, `meteor.py`, `rouge.py`).  The scoring
backends live under `local_metrics/` outside this repository, so each
wrapper is parameterised by its backend: a function from the wrapper's
inputs to the result dict the backend's own `compute` returns. -/

/-- Python `dict.get(key, 0.0)` on a result dict. -/
def dictGetD (results : List (String × ℚ)) (key : String) : ℚ :=
  ((results.find? (fun kv => kv.1 == key)).map Prod.snd).getD 0

/-- `BleuWrapper.compute`: wrap each reference as a one-element list, call
the backend, read the corpus-level `bleu` entry (default 0.0), and
replicate it once per prediction under the name `bleu_score`. -/
def BleuWrapper.compute (backend : List String → List (List String) → List (String × ℚ))
    (predictions references : List String) : List (String × List ℚ) :=
  let formattedReferences := references.map (fun ref => [ref])
  let results := backend predictions formattedReferences
  let bleuScore := dictGetD results "bleu"
  [("bleu_score", List.replicate predictions.length bleuScore)]

/-- `MeteorWrapper.compute`: call the backend, read the corpus-level
`meteor` entry (default 0.0), and replicate it once per prediction under
the name `meteor_score`. -/
def MeteorWrapper.compute (backend : List String → List String → List (String × ℚ))
    (predictions references : List String) : List (String × List ℚ) :=
  let results := backend predictions references
  let meteorScore := dictGetD results "meteor"
  [("meteor_score", List.replicate predictions.length meteorScore)]

/-- `RougeWrapper.compute`: call the backend and replicate every returned
corpus-level entry once per prediction, prefixing its key with `rouge_`. -/
def RougeWrapper.compute (backend : List String → List String → List (String × ℚ))
    (predictions references : List String) : List (String × List ℚ) :=
  let results := backend predictions references
  results.map (fun kv => ("rouge_" ++ kv.1, List.replicate predictions.length kv.2))

/-! BLEURT wrapper (`bleurt.py`).  Construction checks the local checkpoint
directory before any model loading; `compute` runs the model on the
tokenized (reference, prediction) pairs, squeezes the `(N, 1)` logit tensor
and converts it with `tolist()`. -/

/-- Default checkpoint name (`kwargs.get("checkpoint", "bleurt-base-128")`). -/
def bleurtDefaultCheckpoint : String := "bleurt-base-128"

/-- `os.path.join(current_dir, '..', '..', 'local_metrics', 'bleurt', name)`. -/
def bleurtCheckpointPath (currentDir checkpointName : String) : String :=
  currentDir ++ "/../../local_metrics/bleurt/" ++ checkpointName

/-- Message of the `FileNotFoundError` raised when the checkpoint directory
is absent. -/
def bleurtNotFoundMsg (path : String) : String :=
  "BLEURT checkpoint not found at path: " ++ path ++
    ". Please make sure you have downloaded the files from Hugging Face Hub correctly."

/-- `BLEURTWrapper.__init__`: resolve the checkpoint path from the optional
`checkpoint` keyword, raise `FileNotFoundError` when the path does not
exist, and only then load tokenizer and model.  `pathDoesExist` is the
`os.path.exists` view of the file system; the returned value stands for the
constructed wrapper (the verified checkpoint path it loaded from). -/
def BLEURTWrapper.init (pathDoesExist : String → Bool) (currentDir : String)
    (checkpoint : Option String) : Except String String :=
  let checkpointName := checkpoint.getD bleurtDefaultCheckpoint
  let checkpointPath := bleurtCheckpointPath currentDir checkpointName
  if pathDoesExist checkpointPath then .ok checkpointPath
  else .error (bleurtNotFoundMsg checkpointPath)

/-- Python value produced by `Tensor.tolist()`: a scalar for a 0-dimensional
tensor, nested lists otherwise. -/
inductive PyVal where
  | num (q : ℚ)
  | list (xs : List PyVal)
deriving Repr

/-- Torch tensor of rank at most one after squeezing, as BLEURT's score
tensor is: its shape and its (flattened) values. -/
structure Tensor where
  shape : List Nat
  values : List ℚ
deriving DecidableEq, Repr

/-- `Tensor.squeeze()`: drop every dimension of size one. -/
def Tensor.squeeze (t : Tensor) : Tensor :=
  ⟨t.shape.filter (fun d => d != 1), t.values⟩

/-- `Tensor.tolist()` for tensors of rank at most one (the only ranks the
BLEURT score tensor reaches): a bare scalar for rank zero — `tolist` of a
0-dimensional tensor is a Python float, not a list — and a flat list
otherwise. -/
def Tensor.tolist (t : Tensor) : PyVal :=
  match t.shape with
  | [] => PyVal.num (t.values.headD 0)
  | _ => PyVal.list (t.values.map PyVal.num)

/-- `BLEURTWrapper.compute`: tokenize the (reference, prediction) pairs,
run the model — `modelScores` stands for the forward pass, one logit per
pair, shape `(N, 1)` — then `squeeze()` and `tolist()` the logits and
return them under `bleurt_score`. -/
def BLEURTWrapper.compute (modelScores : List (String × String) → List ℚ)
    (predictions references : List String) : List (String × PyVal) :=
  let pairs := references.zip predictions
  let logits : Tensor := ⟨[pairs.length, 1], modelScores pairs⟩
  let scores := logits.squeeze.tolist
  [("bleurt_score", scores)]

/-- Construction followed by a first `compute` call: the checkpoint check
runs during construction, so its failure is independent of any `compute`
input. -/
def BLEURTWrapper.constructAndCompute (pathDoesExist : String → Bool)
    (currentDir : String) (checkpoint : Option String)
    (modelScores : List (String × String) → List ℚ)
    (predictions references : List String) : Except String (List (String × PyVal)) :=
  (BLEURTWrapper.init pathDoesExist currentDir checkpoint).map
    (fun _ => BLEURTWrapper.compute modelScores predictions references)

/-! Concrete fixtures used to evaluate the development on closed inputs:
a three-row table carrying a monotone sentinel column, a two-row table, and
small mock adapters. -/

/-- Three-row input table with a strictly increasing sentinel column. -/
def sampleTable : DataFrame :=
  ⟨[("original_text", [.str "o1", .str "o2", .str "o3"]),
    ("degraded_text", [.str "d1", .str "d2", .str "d3"]),
    ("degradation_type", [.str "t1", .str "t2", .str "t3"]),
    ("sentinel", [.num 1, .num 2, .num 3])], 3⟩

/-- Two-row input table. -/
def tableTwo : DataFrame :=
  ⟨[("original_text", [.str "a", .str "b"]),
    ("degraded_text", [.str "c", .str "d"]),
    ("degradation_type", [.str "t1", .str "t2"])], 2⟩

/-- Mock adapter returning a single score for every input — one value short
on `tableTwo`, two short on `sampleTable`. -/
def metricShort : Metric := ⟨"short", fun _ _ => .ok [("s", [Cell.num (1/2)])]⟩

/-- Mock adapter returning three scores under the name `score`. -/
def metricFull : Metric :=
  ⟨"full", fun _ _ => .ok [("score", [Cell.num 9, Cell.num 9, Cell.num 9])]⟩

/-- Mock adapter whose `compute` raises. -/
def metricBoom : Metric := ⟨"boom", fun _ _ => .error "RuntimeError: boom"⟩

/-- First mock adapter emitting score name `x`. -/
def metricXFirst : Metric :=
  ⟨"first", fun _ _ => .ok [("x", [Cell.num 1, Cell.num 2, Cell.num 3])]⟩

/-- Second mock adapter emitting score name `x` with different values. -/
def metricXSecond : Metric :=
  ⟨"second", fun _ _ => .ok [("x", [Cell.num 4, Cell.num 5, Cell.num 6])]⟩

/-- Result frame of running `metricFull` on `sampleTable`. -/
def sampleTableScored : DataFrame :=
  ⟨sampleTable.cols ++ [("score", [Cell.num 9, Cell.num 9, Cell.num 9])], 3⟩

/-- Shape stated by the claim for the value `BLEURTWrapper.compute` returns
under `bleurt_score`: the bare squeezed scalar when there is exactly one
(prediction, reference) pair, the flat list of the per-pair floats
otherwise.  Compared below against the wrapper's actual result. -/
def bleurtScoreClaimed (n : Nat) (raw : List ℚ) : PyVal :=
  if n = 1 then PyVal.num (raw.headD 0) else PyVal.list (raw.map PyVal.num)

/-- Stub BLEU backend returning a fixed corpus-level result dict. -/
def bleuBackendStub : List String → List (List String) → List (String × ℚ) :=
  fun _ _ => [("bleu", 1/2), ("brevity_penalty", 1)]

/-- Stub METEOR backend returning a fixed corpus-level result dict. -/
def meteorBackendStub : List String → List String → List (String × ℚ) :=
  fun _ _ => [("meteor", 3/4)]

/-- Stub ROUGE backend returning two fixed corpus-level entries. -/
def rougeBackendStub : List String → List String → List (String × ℚ) :=
  fun _ _ => [("rouge1", 1/4), ("rougeL", 1/8)]

/-- Stub BLEURT forward pass: one fixed logit per input pair. -/
def bleurtModelStub : List (String × String) → List ℚ :=
  fun pairs => pairs.map (fun _ => 7/10)

/-- File-system view on which no path exists. -/
def noPaths : String → Bool := fun _ => false

/-! Helper lemmas about column assignment and the runner loops. -/

theorem find?_replaceColVals_ne (name c : String) (vals : List Cell)
    (h : ¬ name = c) (cols : List (String × List Cell)) :
    (replaceColVals name vals cols).find? (fun p => p.1 == c) =
      cols.find? (fun p => p.1 == c) := by
  have hnc : (name == c) = false := by simp [h]
  induction cols with
  | nil => rfl
  | cons p rest ih =>
    by_cases hp : p.1 = name
    · simp [replaceColVals, List.find?, hp, hnc, ih]
    · simp only [replaceColVals, List.find?]
      have hpn : (p.1 == name) = false := by simp [hp]
      rw [hpn]
      simp only [if_neg, Bool.false_eq_true, not_false_eq_true, ite_false]
      cases hpc : (p.1 == c) <;> simp [List.find?, hpc, ih]

theorem find?_setColVals_ne (name c : String) (vals : List Cell)
    (h : ¬ name = c) (cols : List (String × List Cell)) :
    (setColVals name vals cols).find? (fun p => p.1 == c) =
      cols.find? (fun p => p.1 == c) := by
  have hnc : (name == c) = false := by simp [h]
  induction cols with
  | nil => simp [setColVals, List.find?, hnc]
  | cons p rest ih =>
    by_cases hp : p.1 = name
    · simp [setColVals, List.find?, hp, hnc,
        find?_replaceColVals_ne name c vals h rest]
    · have hpn : (p.1 == name) = false := by simp [hp]
      simp only [setColVals, hpn, Bool.false_eq_true, not_false_eq_true, ite_false,
        if_neg, List.find?]
      cases hpc : (p.1 == c) <;> simp [List.find?, hpc, ih]

theorem find?_setColVals_self (name : String) (vals : List Cell)
    (cols : List (String × List Cell)) :
    (setColVals name vals cols).find? (fun p => p.1 == name) = some (name, vals) := by
  induction cols with
  | nil => simp [setColVals, List.find?]
  | cons p rest ih =>
    by_cases hp : p.1 = name
    · simp [setColVals, List.find?, hp]
    · have hpn : (p.1 == name) = false := by simp [hp]
      simp [setColVals, List.find?, hpn, ih]

theorem names_replaceColVals (name : String) (vals : List Cell)
    (cols : List (String × List Cell)) :
    (replaceColVals name vals cols).map Prod.fst = cols.map Prod.fst := by
  induction cols with
  | nil => rfl
  | cons p rest ih =>
    by_cases hp : p.1 = name
    · simp [replaceColVals, hp, ih]
    · have hpn : (p.1 == name) = false := by simp [hp]
      simp [replaceColVals, hpn, ih]

theorem names_setColVals (name : String) (vals : List Cell)
    (cols : List (String × List Cell)) :
    (setColVals name vals cols).map Prod.fst =
      if name ∈ cols.map Prod.fst then cols.map Prod.fst
      else cols.map Prod.fst ++ [name] := by
  induction cols with
  | nil => simp [setColVals]
  | cons p rest ih =>
    by_cases hp : p.1 = name
    · simp [setColVals, hp, names_replaceColVals]
    · have hpn : (p.1 == name) = false := by simp [hp]
      by_cases hmem : name ∈ rest.map Prod.fst
      · simp [setColVals, hpn, hmem, ih, Ne.symm hp]
      · simp [setColVals, hpn, hmem, ih, Ne.symm hp]

theorem setCol_ok_parts {df df' : DataFrame} {name : String} {vals : List Cell}
    (h : df.setCol name vals = .ok df') :
    df'.cols = setColVals name vals df.cols ∧ df'.nrows = df.nrows ∧
      vals.length = df.nrows := by
  unfold DataFrame.setCol at h
  split at h
  · cases h
    exact ⟨rfl, rfl, by assumption⟩
  · cases h

theorem getCol_setCol_self {df df' : DataFrame} {name : String} {vals : List Cell}
    (h : df.setCol name vals = .ok df') : df'.getCol name = some vals := by
  obtain ⟨hc, -, -⟩ := setCol_ok_parts h
  unfold DataFrame.getCol
  rw [hc, find?_setColVals_self]
  rfl

theorem getCol_setCol_ne {df df' : DataFrame} {name c : String} {vals : List Cell}
    (h : df.setCol name vals = .ok df') (hne : ¬ name = c) :
    df'.getCol c = df.getCol c := by
  obtain ⟨hc, -, -⟩ := setCol_ok_parts h
  unfold DataFrame.getCol
  rw [hc, find?_setColVals_ne name c vals hne]

theorem applyScores_ok (scores : List (String × List Cell)) (df out : DataFrame)
    (log log' : List String)
    (h : applyScores df log scores = (log', .ok out)) :
    out.nrows = df.nrows ∧
      ∀ c, c ∉ scores.map Prod.fst → out.getCol c = df.getCol c := by
  induction scores generalizing df log with
  | nil =>
    simp only [applyScores, Prod.mk.injEq] at h
    obtain ⟨-, h2⟩ := h
    cases h2
    exact ⟨rfl, fun c _ => rfl⟩
  | cons p rest ih =>
    obtain ⟨name, vals⟩ := p
    simp only [applyScores] at h
    cases hset : df.setCol name vals with
    | ok df₁ =>
      rw [hset] at h
      simp only at h
      obtain ⟨h1, h2⟩ := ih df₁ _ h
      obtain ⟨-, hnr, -⟩ := setCol_ok_parts hset
      refine ⟨h1.trans hnr, fun c hc => ?_⟩
      simp only [List.map_cons, List.mem_cons, not_or] at hc
      rw [h2 c hc.2, getCol_setCol_ne hset (fun he => hc.1 he.symm)]
    | error e =>
      rw [hset] at h
      simp only [Prod.mk.injEq] at h
      exact absurd h.2 (by simp)

theorem runMetrics_ok (predictions references : List Cell)
    (metrics : List Metric) (df out : DataFrame) (log log' : List String)
    (h : runMetrics predictions references metrics df log = (log', .ok out)) :
    out.nrows = df.nrows ∧
      ∀ c, c ∉ emittedNames predictions references metrics →
        out.getCol c = df.getCol c := by
  induction metrics generalizing df log with
  | nil =>
    simp only [runMetrics, Prod.mk.injEq] at h
    obtain ⟨-, h2⟩ := h
    cases h2
    exact ⟨rfl, fun c _ => rfl⟩
  | cons m rest ih =>
    simp only [runMetrics] at h
    cases hm : m.compute predictions references with
    | error e =>
      rw [hm] at h
      simp only [Prod.mk.injEq] at h
      exact absurd h.2 (by simp)
    | ok scores =>
      rw [hm] at h
      simp only at h
      cases has : applyScores df log scores with
      | mk log₁ r =>
        rw [has] at h
        cases r with
        | ok df₁ =>
          simp only at h
          obtain ⟨h1, h2⟩ := ih df₁ log₁ h
          obtain ⟨h3, h4⟩ := applyScores_ok scores df df₁ log log₁ has
          refine ⟨h1.trans h3, fun c hc => ?_⟩
          simp only [emittedNames, hm, List.mem_append, not_or] at hc
          rw [h2 c hc.2, h4 c hc.1]
        | error e =>
          simp only [Prod.mk.injEq] at h
          exact absurd h.2 (by simp)

theorem runMetrics_append_ok (predictions references : List Cell)
    (a b : List Metric) (df df' : DataFrame) (log log' : List String)
    (h : runMetrics predictions references a df log = (log', .ok df')) :
    runMetrics predictions references (a ++ b) df log =
      runMetrics predictions references b df' log' := by
  induction a generalizing df log with
  | nil =>
    simp only [runMetrics, Prod.mk.injEq] at h
    obtain ⟨h1, h2⟩ := h
    cases h2
    rw [List.nil_append, h1]
  | cons m rest ih =>
    simp only [runMetrics, List.cons_append] at h ⊢
    cases hm : m.compute predictions references with
    | error e =>
      rw [hm] at h
      simp only [Prod.mk.injEq] at h
      exact absurd h.2 (by simp)
    | ok scores =>
      rw [hm] at h
      simp only at h ⊢
      cases has : applyScores df log scores with
      | mk log₁ r =>
        rw [has] at h
        cases r with
        | ok df₁ => exact ih df₁ log₁ h
        | error e =>
          simp only [Prod.mk.injEq] at h
          exact absurd h.2 (by simp)

theorem count_names_setColVals_twice (s : String) (v1 v2 : List Cell)
    (cols : List (String × List Cell))
    (hnodup : (cols.map Prod.fst).Nodup) :
    ((setColVals s v2 (setColVals s v1 cols)).map Prod.fst).count s = 1 := by
  rw [names_setColVals, names_setColVals]
  by_cases hmem : s ∈ cols.map Prod.fst
  · simp only [hmem, if_true]
    exact List.count_eq_one_of_mem hnodup hmem
  · simp only [hmem, if_false, List.mem_append, List.mem_singleton, or_true, if_true]
    rw [List.count_append, List.count_eq_zero_of_not_mem hmem]
    simp

theorem getTable_setTable_ne (s : Store) (i j : Nat) (t : DataFrame)
    (h : ¬ i = j) : (s.setTable i t).getTable j = s.getTable j := by
  unfold Store.setTable Store.getTable
  simp only [List.getD_eq_getElem?_getD, List.getElem?_set_ne (fun he => h he)]

theorem applyScoresStore_preserves (scores : List (String × List Cell))
    (s : Store) (rid j : Nat) (log : List String) (h : ¬ rid = j) :
    (applyScoresStore s rid log scores).1.getTable j = s.getTable j := by
  induction scores generalizing s log with
  | nil => rfl
  | cons p rest ih =>
    obtain ⟨name, vals⟩ := p
    simp only [applyScoresStore]
    cases hset : (s.getTable rid).setCol name vals with
    | ok df' =>
      rw [(ih (s.setTable rid df') _ : _)]
      exact getTable_setTable_ne s rid j df' h
    | error e => rfl

theorem runMetricsStore_preserves (predictions references : List Cell)
    (metrics : List Metric) (s : Store) (rid j : Nat) (log : List String)
    (h : ¬ rid = j) :
    (runMetricsStore predictions references rid metrics s log).1.getTable j =
      s.getTable j := by
  induction metrics generalizing s log with
  | nil => rfl
  | cons m rest ih =>
    simp only [runMetricsStore]
    cases hm : m.compute predictions references with
    | error e => rfl
    | ok scores =>
      cases has : applyScoresStore s rid log scores with
      | mk s₁ rest₁ =>
        obtain ⟨log₁, r⟩ := rest₁
        have hpres : s₁.getTable j = s.getTable j := by
          have hx := applyScoresStore_preserves scores s rid j log h
          rw [has] at hx
          exact hx
        simp only [has]
        cases r with
        | ok u => exact (ih s₁ log₁).trans hpres
        | error e => exact hpres

/-! Claim theorems. -/

/-- C1, evidence of the code bug: on the two-row table, an adapter
returning a single value under the score name `s` makes `run` record the
length-mismatch warning and then raise pandas' `ValueError` from the very
next column assignment; no result table is produced, contradicting the
claim that the mismatched values are merged and `run` does not raise. -/
theorem run_mismatch_warns_then_raises :
    EvaluationRunner.run [metricShort] tableTwo "original_text" "degraded_text" =
      ([mismatchWarning "s" 1 2], .error (lengthMismatchError 1 2)) := by
  rfl

/-- C3: an exception raised by an adapter's `compute` is not caught by
`EvaluationRunner.run`: once the loop reaches that adapter, the run's
outcome is exactly that error — no result frame — and the adapters
registered after the failing one have no influence on the outcome. -/
theorem run_propagates_compute_error
    (pre post post₂ : List Metric) (m : Metric) (df df' : DataFrame)
    (originalCol degradedCol : String) (predictions references : List Cell)
    (log : List String) (e : String)
    (hdeg : df.getCol degradedCol = some predictions)
    (horig : df.getCol originalCol = some references)
    (hpre : runMetrics predictions references pre df [] = (log, .ok df'))
    (hm : m.compute predictions references = .error e) :
    (EvaluationRunner.run (pre ++ m :: post) df originalCol degradedCol).2 =
        .error e ∧
      EvaluationRunner.run (pre ++ m :: post) df originalCol degradedCol =
        EvaluationRunner.run (pre ++ m :: post₂) df originalCol degradedCol := by
  have key : ∀ q : List Metric,
      EvaluationRunner.run (pre ++ m :: q) df originalCol degradedCol =
        (log, .error e) := by
    intro q
    simp only [EvaluationRunner.run, hdeg, horig]
    rw [runMetrics_append_ok predictions references pre (m :: q) df df' [] log hpre]
    simp [runMetrics, hm]
  rw [key post, key post₂]
  exact ⟨rfl, rfl⟩

/-- Closed instance of `run_propagates_compute_error`: the raising adapter
`metricBoom` aborts the run on `sampleTable` with its own error, and the
trailing `metricFull` is irrelevant to the outcome. -/
theorem run_propagates_compute_error_witness :
    (EvaluationRunner.run ([] ++ metricBoom :: [metricFull]) sampleTable
        "original_text" "degraded_text").2 = .error "RuntimeError: boom" ∧
      EvaluationRunner.run ([] ++ metricBoom :: [metricFull]) sampleTable
          "original_text" "degraded_text" =
        EvaluationRunner.run ([] ++ metricBoom :: []) sampleTable
          "original_text" "degraded_text" :=
  run_propagates_compute_error [] [metricFull] [] metricBoom sampleTable
    sampleTable "original_text" "degraded_text"
    [Cell.str "d1", Cell.str "d2", Cell.str "d3"]
    [Cell.str "o1", Cell.str "o2", Cell.str "o3"]
    [] "RuntimeError: boom" (by rfl) (by rfl) (by rfl) (by rfl)

/-- C6: run on the store-passing embedding leaves the caller's frame
untouched — after the call, the slot holding the input table has exactly
the columns and values it had before — and the identifier of the returned
result table is never the input's (the result is a distinct table). -/
theorem run_does_not_mutate_input (metrics : List Metric) (s : Store)
    (did : Nat) (originalCol degradedCol : String)
    (h : did < s.tables.length) :
    (EvaluationRunner.runStore metrics s did originalCol degradedCol).1.getTable
        did = s.getTable did ∧
      (EvaluationRunner.runStore metrics s did originalCol degradedCol).2.2 ≠
        .ok did := by
  have hne : ¬ s.tables.length = did := fun he => absurd (he ▸ h) (lt_irrefl did)
  have happ : (Store.mk (s.tables ++ [s.getTable did])).getTable did =
      s.getTable did := by
    unfold Store.getTable
    simp only [List.getD_eq_getElem?_getD]
    rw [List.getElem?_append]
    simp [h]
  simp only [EvaluationRunner.runStore]
  cases hdeg : (s.getTable did).getCol degradedCol with
  | none => exact ⟨happ, by simp⟩
  | some predictions =>
    cases horig : (s.getTable did).getCol originalCol with
    | none => exact ⟨happ, by simp⟩
    | some references =>
      cases hrun : runMetricsStore predictions references s.tables.length
          metrics ⟨s.tables ++ [s.getTable did]⟩ [] with
      | mk s' rest₁ =>
        obtain ⟨log, r⟩ := rest₁
        have hpres : s'.getTable did = s.getTable did := by
          have hx := runMetricsStore_preserves predictions references metrics
            ⟨s.tables ++ [s.getTable did]⟩ s.tables.length did [] hne
          rw [hrun] at hx
          exact hx.trans happ
        simp only [hrun]
        cases r with
        | ok u => exact ⟨hpres, by simp [hne]⟩
        | error e => exact ⟨hpres, by simp⟩

/-- Closed instance of `run_does_not_mutate_input`: a one-table store with
`metricFull` run on `sampleTable` at index 0. -/
theorem run_does_not_mutate_input_witness :
    (EvaluationRunner.runStore [metricFull] ⟨[sampleTable]⟩ 0
        "original_text" "degraded_text").1.getTable 0 =
      Store.getTable ⟨[sampleTable]⟩ 0 ∧
      (EvaluationRunner.runStore [metricFull] ⟨[sampleTable]⟩ 0
        "original_text" "degraded_text").2.2 ≠ .ok 0 :=
  run_does_not_mutate_input [metricFull] ⟨[sampleTable]⟩ 0
    "original_text" "degraded_text" (by decide)

/-- C2: whenever `run` returns a result table on a non-empty input, the
result has exactly the input's row count, and every input column whose name
is not among the emitted score names keeps exactly its value sequence —
in particular a monotone sentinel column is unchanged, so the rows appear
in the input's order. -/
theorem run_preserves_row_count_and_order
    (metrics : List Metric) (data out : DataFrame)
    (originalCol degradedCol c : String)
    (predictions references vals : List Cell) (log : List String)
    (_hne : 0 < data.nrows)
    (hdeg : data.getCol degradedCol = some predictions)
    (horig : data.getCol originalCol = some references)
    (hrun : EvaluationRunner.run metrics data originalCol degradedCol =
      (log, .ok out))
    (hc : data.getCol c = some vals)
    (hfree : c ∉ emittedNames predictions references metrics) :
    out.nrows = data.nrows ∧ out.getCol c = some vals := by
  simp only [EvaluationRunner.run, hdeg, horig] at hrun
  obtain ⟨h1, h2⟩ := runMetrics_ok predictions references metrics data out
    [] log hrun
  exact ⟨h1, (h2 c hfree).trans hc⟩

/-- Closed instance of `run_preserves_row_count_and_order`: running
`metricFull` on the three-row `sampleTable` keeps three rows and the
sentinel column `[1, 2, 3]` in order. -/
theorem run_preserves_row_count_and_order_witness :
    sampleTableScored.nrows = sampleTable.nrows ∧
      sampleTableScored.getCol "sentinel" =
        some [Cell.num 1, Cell.num 2, Cell.num 3] :=
  run_preserves_row_count_and_order [metricFull] sampleTable sampleTableScored
    "original_text" "degraded_text" "sentinel"
    [Cell.str "d1", Cell.str "d2", Cell.str "d3"]
    [Cell.str "o1", Cell.str "o2", Cell.str "o3"]
    [Cell.num 1, Cell.num 2, Cell.num 3] []
    (by decide) (by rfl) (by rfl) (by rfl) (by rfl) (by decide)

/-- C4: when two adapters both emit a full-length score list under the same
name, `run` succeeds, the result table carries exactly one column of that
name, and its values are those of the adapter registered later. -/
theorem run_last_writer_wins
    (m1 m2 : Metric) (data : DataFrame) (originalCol degradedCol s : String)
    (predictions references v1 v2 : List Cell)
    (hdeg : data.getCol degradedCol = some predictions)
    (horig : data.getCol originalCol = some references)
    (h1 : m1.compute predictions references = .ok [(s, v1)])
    (h2 : m2.compute predictions references = .ok [(s, v2)])
    (hl1 : v1.length = data.nrows)
    (hl2 : v2.length = data.nrows)
    (hnodup : (data.cols.map Prod.fst).Nodup) :
    (EvaluationRunner.run [m1, m2] data originalCol degradedCol).2.map
        (fun t => t.getCol s) = .ok (some v2) ∧
      (EvaluationRunner.run [m1, m2] data originalCol degradedCol).2.map
        (fun t => (t.cols.map Prod.fst).count s) = .ok 1 := by
  have hstep : EvaluationRunner.run [m1, m2] data originalCol degradedCol =
      ([], .ok ⟨setColVals s v2 (setColVals s v1 data.cols), data.nrows⟩) := by
    simp only [EvaluationRunner.run, hdeg, horig, runMetrics, applyScores,
      DataFrame.setCol, h1, h2, hl1, hl2, ne_eq, not_true_eq_false, if_true,
      if_false, ite_true, ite_false, if_pos rfl]
  rw [hstep]
  constructor
  · simp only [Except.map, DataFrame.getCol]
    rw [find?_setColVals_self]
    rfl
  · simp only [Except.map]
    rw [count_names_setColVals_twice s v1 v2 data.cols hnodup]

/-- Closed instance of `run_last_writer_wins`: `metricXFirst` and
`metricXSecond` both emit `x` on `sampleTable`; the result's `x` column is
the second adapter's `[4, 5, 6]` and appears exactly once. -/
theorem run_last_writer_wins_witness :
    (EvaluationRunner.run [metricXFirst, metricXSecond] sampleTable
        "original_text" "degraded_text").2.map (fun t => t.getCol "x") =
      .ok (some [Cell.num 4, Cell.num 5, Cell.num 6]) ∧
      (EvaluationRunner.run [metricXFirst, metricXSecond] sampleTable
        "original_text" "degraded_text").2.map
          (fun t => (t.cols.map Prod.fst).count "x") = .ok 1 :=
  run_last_writer_wins metricXFirst metricXSecond sampleTable
    "original_text" "degraded_text" "x"
    [Cell.str "d1", Cell.str "d2", Cell.str "d3"]
    [Cell.str "o1", Cell.str "o2", Cell.str "o3"]
    [Cell.num 1, Cell.num 2, Cell.num 3] [Cell.num 4, Cell.num 5, Cell.num 6]
    (by rfl) (by rfl) (by rfl) (by rfl) (by rfl) (by rfl) (by decide)

/-- C7: when the reference file `original.txt` is absent, ingestion returns
the empty frame — zero rows and exactly the columns `original_text`,
`degraded_text`, `degradation_type` — and the `__main__` driver's emptiness
gate keeps the orchestrator's `run` from being invoked. -/
theorem ingestion_missing_reference (root : InputRoot)
    (h : root.original = none) :
    load_data_from_files root = emptyIngestFrame ∧
      (load_data_from_files root).nrows = 0 ∧
      (load_data_from_files root).cols.map Prod.fst =
        ["original_text", "degraded_text", "degradation_type"] ∧
      mainInvokesRun root = false := by
  have hload : load_data_from_files root = emptyIngestFrame := by
    unfold load_data_from_files
    rw [h]
  refine ⟨hload, ?_, ?_, ?_⟩
  · rw [hload]; rfl
  · rw [hload]; rfl
  · unfold mainInvokesRun
    rw [hload]
    rfl

/-- Closed instance of `ingestion_missing_reference`: a root with no
reference file and one variant file still ingests to the empty frame and
skips the run. -/
theorem ingestion_missing_reference_witness :
    load_data_from_files ⟨none, some [("x.txt", "hello")]⟩ = emptyIngestFrame ∧
      (load_data_from_files ⟨none, some [("x.txt", "hello")]⟩).nrows = 0 ∧
      (load_data_from_files ⟨none, some [("x.txt", "hello")]⟩).cols.map
        Prod.fst = ["original_text", "degraded_text", "degradation_type"] ∧
      mainInvokesRun ⟨none, some [("x.txt", "hello")]⟩ = false :=
  ingestion_missing_reference ⟨none, some [("x.txt", "hello")]⟩ (by rfl)

/-- C8: when the reference file is present and every file of the variant
directory's listing is a `.txt` file, ingestion yields one row per variant
file plus the self-comparison row: the row count is the listing length plus
one, the label column starts with the self-comparison label followed by the
file names with their extensions stripped, the reference column is the
reference text on every row, and the degraded column starts with the
reference text (paired with itself) followed by each variant's contents. -/
theorem ingestion_one_row_per_variant (root : InputRoot) (orig : String)
    (listing : List (String × String))
    (hr : root.original = some orig)
    (hd : root.degradedDir = some listing)
    (htxt : ∀ p ∈ listing, strEndsWith p.1 ".txt" = true) :
    (load_data_from_files root).nrows = listing.length + 1 ∧
      (load_data_from_files root).getCol "degradation_type" =
        some (Cell.str "Original (Self-comparison)" ::
          listing.map (fun p => Cell.str (splitextStem p.1))) ∧
      (load_data_from_files root).getCol "original_text" =
        some (List.replicate (listing.length + 1) (Cell.str orig)) ∧
      (load_data_from_files root).getCol "degraded_text" =
        some (Cell.str orig :: listing.map (fun p => Cell.str p.2)) := by
  have hfilter : listing.filter (fun p => strEndsWith p.1 ".txt") = listing :=
    List.filter_eq_self.mpr htxt
  unfold load_data_from_files
  rw [hr, hd]
  simp only [hfilter]
  refine ⟨by simp [recordsToFrame], ?_, ?_, ?_⟩
  · simp only [recordsToFrame, DataFrame.getCol, List.find?, List.map_cons,
      List.map_map]
    rfl
  · simp only [recordsToFrame, DataFrame.getCol, List.find?, List.map_cons,
      List.map_map]
    have : listing.map ((fun r : IngestRecord => Cell.str r.original_text) ∘
        (fun p : String × String =>
          (⟨orig, p.2, splitextStem p.1⟩ : IngestRecord))) =
        List.replicate listing.length (Cell.str orig) := by
      rw [List.eq_replicate_iff]
      constructor
      · rw [List.length_map]
      · intro b hb
        simp only [List.mem_map, Function.comp] at hb
        obtain ⟨p, -, hp⟩ := hb
        exact hp.symm
    simp only [Function.comp] at this ⊢
    rw [this]
    rfl
  · simp only [recordsToFrame, DataFrame.getCol, List.find?, List.map_cons,
      List.map_map]
    rfl

/-- Closed instance of `ingestion_one_row_per_variant`: a two-file listing
yields three rows with the expected columns. -/
theorem ingestion_one_row_per_variant_witness :
    (load_data_from_files ⟨some "ORIG",
        some [("x.txt", "hello"), ("z.txt", "w")]⟩).nrows = 2 + 1 ∧
      (load_data_from_files ⟨some "ORIG",
          some [("x.txt", "hello"), ("z.txt", "w")]⟩).getCol
          "degradation_type" =
        some (Cell.str "Original (Self-comparison)" ::
          [("x.txt", "hello"), ("z.txt", "w")].map
            (fun p => Cell.str (splitextStem p.1))) ∧
      (load_data_from_files ⟨some "ORIG",
          some [("x.txt", "hello"), ("z.txt", "w")]⟩).getCol "original_text" =
        some (List.replicate (2 + 1) (Cell.str "ORIG")) ∧
      (load_data_from_files ⟨some "ORIG",
          some [("x.txt", "hello"), ("z.txt", "w")]⟩).getCol "degraded_text" =
        some (Cell.str "ORIG" :: [("x.txt", "hello"), ("z.txt", "w")].map
          (fun p => Cell.str p.2)) :=
  ingestion_one_row_per_variant ⟨some "ORIG",
      some [("x.txt", "hello"), ("z.txt", "w")]⟩ "ORIG"
    [("x.txt", "hello"), ("z.txt", "w")] (by rfl) (by rfl) (by decide)

theorem replicate_headD (n : Nat) (c : ℚ) :
    List.replicate n ((List.replicate n c).headD 0) = List.replicate n c := by
  cases n with
  | zero => rfl
  | succ k => rfl

theorem all_broadcast_aux (n : Nat) (c : ℚ) :
    (List.replicate n c ==
      List.replicate n ((List.replicate n c).headD 0)) = true := by
  rw [replicate_headD]
  exact beq_self_eq_true _

/-- C5: each corpus-level wrapper (`BleuWrapper`, `MeteorWrapper`,
`RougeWrapper`), on equal-length prediction and reference lists of length
`N` and any backend, emits only score sequences equal to a constant list of
length `N`: the single aggregate score broadcast to every row by
replication. -/
theorem corpus_wrappers_broadcast
    (bleuBackend : List String → List (List String) → List (String × ℚ))
    (meteorBackend rougeBackend : List String → List String → List (String × ℚ))
    (predictions references : List String) (N : Nat)
    (hp : predictions.length = N) (_hr : references.length = N) :
    ((BleuWrapper.compute bleuBackend predictions references).all
        (fun nv => nv.2 == List.replicate N (nv.2.headD 0)) = true) ∧
      ((MeteorWrapper.compute meteorBackend predictions references).all
        (fun nv => nv.2 == List.replicate N (nv.2.headD 0)) = true) ∧
      ((RougeWrapper.compute rougeBackend predictions references).all
        (fun nv => nv.2 == List.replicate N (nv.2.headD 0)) = true) := by
  subst hp
  refine ⟨?_, ?_, ?_⟩
  · have hb : BleuWrapper.compute bleuBackend predictions references =
        [("bleu_score", List.replicate predictions.length
          (dictGetD (bleuBackend predictions
            (references.map (fun ref => [ref]))) "bleu"))] := rfl
    rw [hb]
    simp only [List.all_cons, List.all_nil, Bool.and_true]
    exact all_broadcast_aux _ _
  · have hm : MeteorWrapper.compute meteorBackend predictions references =
        [("meteor_score", List.replicate predictions.length
          (dictGetD (meteorBackend predictions references) "meteor"))] := rfl
    rw [hm]
    simp only [List.all_cons, List.all_nil, Bool.and_true]
    exact all_broadcast_aux _ _
  · simp only [RougeWrapper.compute, List.all_eq_true]
    intro nv hnv
    simp only [List.mem_map] at hnv
    obtain ⟨kv, -, hkv⟩ := hnv
    rw [← hkv]
    exact all_broadcast_aux _ _

/-- Closed instance of `corpus_wrappers_broadcast`: the three stub backends
on three prediction/reference pairs each yield constant length-3 score
lists. -/
theorem corpus_wrappers_broadcast_witness :
    ((BleuWrapper.compute bleuBackendStub ["a", "b", "c"] ["x", "y", "z"]).all
        (fun nv => nv.2 == List.replicate 3 (nv.2.headD 0)) = true) ∧
      ((MeteorWrapper.compute meteorBackendStub ["a", "b", "c"]
          ["x", "y", "z"]).all
        (fun nv => nv.2 == List.replicate 3 (nv.2.headD 0)) = true) ∧
      ((RougeWrapper.compute rougeBackendStub ["a", "b", "c"]
          ["x", "y", "z"]).all
        (fun nv => nv.2 == List.replicate 3 (nv.2.headD 0)) = true) :=
  corpus_wrappers_broadcast bleuBackendStub meteorBackendStub rougeBackendStub
    ["a", "b", "c"] ["x", "y", "z"] 3 (by rfl) (by rfl)

/-- C9: when the resolved local checkpoint directory does not exist,
`BLEURTWrapper` construction fails with the `FileNotFoundError` message
naming that path, and construction-followed-by-compute fails with that same
error whatever the compute inputs are — the resource check runs at
construction, not at the first `compute`. -/
theorem bleurt_init_fails_fast (pathDoesExist : String → Bool)
    (currentDir : String) (checkpoint : Option String)
    (modelScores : List (String × String) → List ℚ)
    (predictions references : List String)
    (h : pathDoesExist (bleurtCheckpointPath currentDir
      (checkpoint.getD bleurtDefaultCheckpoint)) = false) :
    BLEURTWrapper.init pathDoesExist currentDir checkpoint =
        .error (bleurtNotFoundMsg (bleurtCheckpointPath currentDir
          (checkpoint.getD bleurtDefaultCheckpoint))) ∧
      BLEURTWrapper.constructAndCompute pathDoesExist currentDir checkpoint
          modelScores predictions references =
        .error (bleurtNotFoundMsg (bleurtCheckpointPath currentDir
          (checkpoint.getD bleurtDefaultCheckpoint))) := by
  have hinit : BLEURTWrapper.init pathDoesExist currentDir checkpoint =
      .error (bleurtNotFoundMsg (bleurtCheckpointPath currentDir
        (checkpoint.getD bleurtDefaultCheckpoint))) := by
    unfold BLEURTWrapper.init
    simp [h]
  refine ⟨hinit, ?_⟩
  unfold BLEURTWrapper.constructAndCompute
  rw [hinit]
  rfl

/-- Closed instance of `bleurt_init_fails_fast`: with no existing paths and
the default checkpoint, construction fails with the message naming the
resolved path. -/
theorem bleurt_init_fails_fast_witness :
    BLEURTWrapper.init noPaths "src/metrics" none =
        .error (bleurtNotFoundMsg (bleurtCheckpointPath "src/metrics"
          (Option.getD none bleurtDefaultCheckpoint))) ∧
      BLEURTWrapper.constructAndCompute noPaths "src/metrics" none
          bleurtModelStub ["p1"] ["r1"] =
        .error (bleurtNotFoundMsg (bleurtCheckpointPath "src/metrics"
          (Option.getD none bleurtDefaultCheckpoint))) :=
  bleurt_init_fails_fast noPaths "src/metrics" none bleurtModelStub
    ["p1"] ["r1"] (by rfl)

theorem squeeze_tolist_shape (n : Nat) (raw : List ℚ) :
    (Tensor.mk [n, 1] raw).squeeze.tolist = bleurtScoreClaimed n raw := by
  unfold Tensor.squeeze Tensor.tolist bleurtScoreClaimed
  by_cases h1 : n = 1
  · subst h1
    rfl
  · have hne : (n != 1) = true := by simp [h1]
    have hfil : [n, 1].filter (fun d => d != 1) = [n] := by
      simp only [List.filter, hne]
      rfl
    simp only [hfil, h1, if_false, ite_false]

/-- C10: `BLEURTWrapper.compute` returns under `bleurt_score` exactly the
shape of `bleurtScoreClaimed`: for one input pair the `(1, 1)` logit tensor
squeezes to rank zero and `tolist()` produces a bare scalar float, and for
any other pair count a flat list of the model's per-pair floats, whose
count equals the input length `N`. -/
theorem bleurt_compute_squeeze_shape
    (modelScores : List (String × String) → List ℚ)
    (predictions references : List String) (N : Nat)
    (hp : predictions.length = N) (hr : references.length = N)
    (hm : (modelScores (references.zip predictions)).length = N) :
    BLEURTWrapper.compute modelScores predictions references =
        [("bleurt_score",
          bleurtScoreClaimed N (modelScores (references.zip predictions)))] ∧
      (modelScores (references.zip predictions)).length = N := by
  have hpairs : (references.zip predictions).length = N := by
    rw [List.length_zip, hr, hp, Nat.min_self]
  refine ⟨?_, hm⟩
  show [("bleurt_score", (Tensor.mk [(references.zip predictions).length, 1]
      (modelScores (references.zip predictions))).squeeze.tolist)] = _
  rw [hpairs, squeeze_tolist_shape]

/-- Closed instance of `bleurt_compute_squeeze_shape` at `N = 1`: the score
value is the bare scalar `bleurtScoreClaimed 1 …`, not a list. -/
theorem bleurt_compute_squeeze_shape_witness :
    BLEURTWrapper.compute bleurtModelStub ["p1"] ["r1"] =
        [("bleurt_score",
          bleurtScoreClaimed 1 (bleurtModelStub [("r1", "p1")]))] ∧
      (bleurtModelStub [("r1", "p1")]).length = 1 :=
  bleurt_compute_squeeze_shape bleurtModelStub ["p1"] ["r1"] 1
    (by rfl) (by rfl) (by rfl)
